import Mathlib

/-! Shallow embedding of the credential-rotating, paginated API-call engine of
youtube_finder.py: KeyManager (credential pool), check_key_quotas (quota
probe), api_call (rotating call executor), search_youtube_all (paginator),
parse_iso_duration and classify_videos (duration classifier).  Remote calls
are abstracted as oracles giving the outcome of each issued request. -/

namespace ChannelFinder

/-- Credential pool (class KeyManager): ordered list of API keys plus the
current-index cursor. -/
structure KM where
  keys : List String
  idx : Nat
deriving DecidableEq

/-- KeyManager.key: the credential at the cursor (self.keys[self.idx]). -/
def KM.key (km : KM) : String := km.keys.getD km.idx ""

/-- KeyManager.rotate: self.idx = (self.idx + 1) % len(self.keys). -/
def KM.rotate (km : KM) : KM := ⟨km.keys, (km.idx + 1) % km.keys.length⟩

/-- Pool invariant: the key list is non-empty and the cursor is in range. -/
def KM.WF (km : KM) : Prop := 0 < km.keys.length ∧ km.idx < km.keys.length

/-- Python whitespace as stripped by str.strip(). -/
def isWS (c : Char) : Bool :=
  c == ' ' || c == '\t' || c == '\n' || c == '\r' || c == '\x0b' || c == '\x0c'

/-- Drop leading whitespace characters. -/
def dropWS : List Char → List Char
  | [] => []
  | c :: cs => if isWS c then dropWS cs else c :: cs

/-- Python line.strip(): drop whitespace at both ends. -/
def stripStr (s : String) : String :=
  ⟨(dropWS (dropWS s.data).reverse).reverse⟩

/-- KeyManager.__init__ / _load: strip every line, keep the non-empty ones,
fail (None, modelling sys.exit) when none remain; cursor starts at 0. -/
def keyManager_init (lines : List String) : Option KM :=
  let ks := (lines.map stripStr).filter (fun s => !(s == ""))
  if ks = [] then none else some ⟨ks, 0⟩

/-- Outcome of one issued request inside api_call: parsed response,
HttpError with a status code, or any other (transport/unexpected) error. -/
inductive ApiOutcome (α : Type) where
  | success (resp : α)
  | httpError (status : Nat)
  | transportError
deriving DecidableEq

/-- The status codes on which api_call rotates: code in (403, 429, 400). -/
def retryableStatus (code : Nat) : Bool :=
  code == 403 || code == 429 || code == 400

/-- An outcome that api_call treats as a credential-class failure. -/
def isCredFailure {α : Type} : ApiOutcome α → Bool
  | .httpError code => retryableStatus code
  | _ => false

/-- An outcome on which api_call gives up at once (HttpError outside
403/429/400, or any non-HTTP exception). -/
def isNonRetryable {α : Type} : ApiOutcome α → Bool
  | .httpError code => !retryableStatus code
  | .transportError => true
  | .success _ => false

/-- Observable result of one api_call: the returned value, the pool state
afterwards, and how many requests were issued. -/
structure CallResult (α : Type) where
  response : Option α
  pool : KM
  calls : Nat
deriving DecidableEq

/-- The while-loop of api_call.  The oracle gives the outcome of the t-th
issued request; t doubles as the count of requests issued so far; fuel is
len(km.keys) - attempts, so the loop guard attempts < len(km.keys) becomes
fuel = 0. -/
def api_call_go {α : Type} (oracle : Nat → ApiOutcome α) : KM → Nat → Nat → CallResult α
  | km, t, 0 => ⟨none, km, t⟩
  | km, t, fuel+1 =>
    match oracle t with
    | .success a => ⟨some a, km, t + 1⟩
    | .httpError code =>
      if retryableStatus code then api_call_go oracle km.rotate (t + 1) fuel
      else ⟨none, km, t + 1⟩
    | .transportError => ⟨none, km, t + 1⟩

/-- api_call(km, build_fn): run the rotation loop with attempts = 0. -/
def api_call {α : Type} (oracle : Nat → ApiOutcome α) (km : KM) : CallResult α :=
  api_call_go oracle km 0 km.keys.length

/-- Outcome of one quota-probe request in check_key_quotas. -/
inductive ProbeOutcome where
  | success
  | httpError (status : Nat)
  | otherError
deriving DecidableEq

/-- A probe outcome counted as active (the cheap call succeeded). -/
def isActive : ProbeOutcome → Bool
  | .success => true
  | _ => false

/-- One iteration of the first_valid bookkeeping in check_key_quotas:
first_valid is set to i only when it is still None and key i is active. -/
def fvStep (oracle : Nat → ProbeOutcome) (fv : Option Nat) (i : Nat) : Option Nat :=
  match fv with
  | some j => some j
  | none => if isActive (oracle i) then some i else none

/-- The first_valid value after the for-loop of check_key_quotas over all
key indices 0, 1, ..., n-1. -/
def first_valid (oracle : Nat → ProbeOutcome) (n : Nat) : Option Nat :=
  (List.range n).foldl (fvStep oracle) none

/-- check_key_quotas(km): probe every key once; if some key was active set
km.idx to the first such index, otherwise leave the pool untouched and only
warn.  The second component is the Python return value of the function. -/
def check_key_quotas (oracle : Nat → ProbeOutcome) (km : KM) : KM × Option Nat :=
  match first_valid oracle km.keys.length with
  | some i => (⟨km.keys, i⟩, none)
  | none => (km, none)

/-- One page of a remote reply: items, the pageInfo.totalResults estimate
(none models a missing field), and the nextPageToken. -/
structure Page (ι : Type) where
  items : List ι
  totalResults : Option Nat
  nextPageToken : Option String
deriving DecidableEq

/-- Python truthiness of an optional token string: None and the empty
string are falsy. -/
def truthyToken : Option String → Bool
  | none => false
  | some s => !(s == "")

/-- The while-True loop of search_youtube_all.  fetch gives the api_call
result of the k-th page request; acc is all_items, tr is total_reported
(outer none = still Python None, i.e. not captured yet). -/
def search_go {ι : Type} (fetch : Nat → Option (Page ι)) :
    Nat → Nat → List ι → Option (Option Nat) → List ι × Option (Option Nat)
  | 0, _, acc, tr => (acc, tr)
  | fuel+1, k, acc, tr =>
    match fetch k with
    | none => (acc, tr)
    | some page =>
      let tr2 := match tr with
        | none => some page.totalResults
        | some v => some v
      let acc2 := acc ++ page.items
      if truthyToken page.nextPageToken then search_go fetch fuel (k+1) acc2 tr2
      else (acc2, tr2)

/-- search_youtube_all: drain pages starting with no token, no items and no
captured total; fuel bounds the number of loop iterations modelled. -/
def search_youtube_all {ι : Type} (fetch : Nat → Option (Page ι)) (fuel : Nat) :
    List ι × Option (Option Nat) :=
  search_go fetch fuel 0 [] none

/-- The items delivered by the j-th page request (empty if it failed). -/
def fetchedItems {ι : Type} (fetch : Nat → Option (Page ι)) (j : Nat) : List ι :=
  match fetch j with
  | some p => p.items
  | none => []

/-- Concatenation, in order, of the items of m consecutive pages starting
at page t. -/
def pagesItems {ι : Type} (fetch : Nat → Option (Page ι)) : Nat → Nat → List ι
  | _, 0 => []
  | t, m+1 => fetchedItems fetch t ++ pagesItems fetch (t+1) m

/-- Decimal value of a digit run, as computed by Python int(). -/
def digitsToNat (ds : List Char) : Nat :=
  ds.foldl (fun acc c => acc * 10 + (c.toNat - 48)) 0

/-- Maximal digit prefix of a character list and the remainder (the greedy
behaviour of a leading backslash-d-plus in the duration pattern). -/
def takeDigits : List Char → List Char × List Char
  | [] => ([], [])
  | c :: cs =>
    if c.isDigit then
      let p := takeDigits cs
      (c :: p.1, p.2)
    else ([], c :: cs)

/-- One optional regex group (digits followed by a delimiter letter): it
matches only when a non-empty digit run is followed by exactly that letter;
otherwise the input position is unchanged and the group is None.  Because
the delimiter letters are not digits, backtracking inside the digit run can
never create a match, so this mirrors the regex exactly. -/
def tryGroup (letter : Char) (s : List Char) : Option Nat × List Char :=
  match takeDigits s with
  | ([], _) => (none, s)
  | (ds, c :: rest) => if c = letter then (some (digitsToNat ds), rest) else (none, s)
  | (_, []) => (none, s)

/-- parse_iso_duration on the character list: the anchored match of
PT(digits H)?(digits M)?(digits S)? followed by 3600*h + 60*m + s; a string
that does not start with PT gives no match, hence 0. -/
def parse_iso_duration_chars (l : List Char) : Nat :=
  match l with
  | 'P' :: 'T' :: rest =>
    let hG := tryGroup 'H' rest
    let mG := tryGroup 'M' hG.2
    let sG := tryGroup 'S' mG.2
    hG.1.getD 0 * 3600 + mG.1.getD 0 * 60 + sG.1.getD 0
  | _ => 0

/-- Whether the regex of parse_iso_duration matches at all: the literal
prefix PT must be present. -/
def startsPT : List Char → Bool
  | 'P' :: 'T' :: _ => true
  | _ => false

/-- parse_iso_duration(iso): total seconds, 0 on no match. -/
def parse_iso_duration (iso : String) : Nat := parse_iso_duration_chars iso.data

/-- A video record produced by fetch_all_channel_videos. -/
structure VideoIn where
  videoId : String
  title : String
  publishedAt : String
deriving DecidableEq

/-- One item of a videos().list reply: id, snippet.title and the optional
contentDetails.duration string. -/
structure ApiVideoItem where
  id : String
  title : String
  duration : Option String
deriving DecidableEq

/-- A classified entry: videoId, title and derived duration in seconds. -/
structure Entry where
  videoId : String
  title : String
  seconds : Nat
deriving DecidableEq

/-- Concatenation of a list of lists, front to back. -/
def concatAll {β : Type} : List (List β) → List β
  | [] => []
  | l :: ls => l ++ concatAll ls

/-- Chunking loop of classify_videos (for i in range(0, len, 50)), with an
explicit fuel that is always sufficient since at least one element is
consumed per step. -/
def chunksAux {β : Type} : Nat → List β → List (List β)
  | 0, _ => []
  | _, [] => []
  | fuel+1, v :: vs => ((v :: vs).take 50) :: chunksAux fuel ((v :: vs).drop 50)

/-- videos split into consecutive chunks of at most 50. -/
def chunks50 {β : Type} (l : List β) : List (List β) := chunksAux l.length l

/-- The entry built for one reply item: duration defaults to PT0S when the
field is missing, then parse_iso_duration gives the seconds. -/
def toEntry (it : ApiVideoItem) : Entry :=
  ⟨it.id, it.title, parse_iso_duration (it.duration.getD "PT0S")⟩

/-- Bucket predicate for long videos (secs > 60). -/
def isLong (e : Entry) : Bool := decide (60 < e.seconds)

/-- Bucket predicate for shorts (secs <= 60). -/
def isShort (e : Entry) : Bool := decide (e.seconds ≤ 60)

/-- Inner loop of classify_videos over one reply: append each entry to
shorts when secs <= 60 and to longs otherwise. -/
def classifyItems (items : List ApiVideoItem) (acc : List Entry × List Entry) :
    List Entry × List Entry :=
  items.foldl (fun acc it =>
    if (toEntry it).seconds ≤ 60 then (acc.1, acc.2 ++ [toEntry it])
    else (acc.1 ++ [toEntry it], acc.2)) acc

/-- classify_videos(km, videos): chunk the input by 50, look each chunk up
(the lookup models the api_call to videos().list), silently skip a chunk
whose lookup failed, and bucket the reply items; returns (longs, shorts). -/
def classify_videos (lookup : List VideoIn → Option (List ApiVideoItem))
    (videos : List VideoIn) : List Entry × List Entry :=
  (chunks50 videos).foldl (fun acc chunk =>
    match lookup chunk with
    | none => acc
    | some items => classifyItems items acc) ([], [])

/-- All reply items of the chunks whose lookup succeeded, in order. -/
def successfulItems (lookup : List VideoIn → Option (List ApiVideoItem))
    (videos : List VideoIn) : List ApiVideoItem :=
  concatAll ((chunks50 videos).map (fun c => (lookup c).getD []))

/-- Probe oracle fixture: key 0 exhausted, all later keys active. -/
def probeW : Nat → ProbeOutcome :=
  fun i => if i = 0 then ProbeOutcome.httpError 403 else ProbeOutcome.success

/-- Page oracle fixture for the partial-pagination witness: two good pages
followed by an exhausted executor. -/
def fetchW3 : Nat → Option (Page Nat)
  | 0 => some ⟨[1, 2], some 100, some "t1"⟩
  | 1 => some ⟨[3], some 4, some "t2"⟩
  | _ => none

/-- First page fixture: 50 items, reported total 9999, has a token. -/
def pageW1 : Page Nat := ⟨List.range 50, some 9999, some "a"⟩

/-- Second page fixture: 50 items, a different reported total, a token. -/
def pageW2 : Page Nat := ⟨(List.range 50).map (fun i => i + 50), some 7, some "b"⟩

/-- Third page fixture: 13 items, no further token. -/
def pageW3 : Page Nat := ⟨(List.range 13).map (fun i => i + 100), some 4, none⟩

/-- The three-page source 50/50/13 of the full-pagination witness. -/
def pagesW : Nat → Page Nat
  | 0 => pageW1
  | 1 => pageW2
  | _ => pageW3

/-- Fetch oracle fixture delivering pagesW. -/
def fetchW : Nat → Option (Page Nat) := fun j => some (pagesW j)

/-- Classification fixture: four videos with seconds 30, 90, 61, 60. -/
def fixtureItems : List ApiVideoItem :=
  [⟨"v1", "a", some "PT30S"⟩, ⟨"v2", "b", some "PT1M30S"⟩,
   ⟨"v3", "c", some "PT1M1S"⟩, ⟨"v4", "d", some "PT1M"⟩]

/-- The input videos matching fixtureItems. -/
def fixtureVideos : List VideoIn :=
  [⟨"v1", "a", ""⟩, ⟨"v2", "b", ""⟩, ⟨"v3", "c", ""⟩, ⟨"v4", "d", ""⟩]

/-- Lookup fixture answering every chunk with fixtureItems. -/
def fixtureLookup : List VideoIn → Option (List ApiVideoItem) :=
  fun _ => some fixtureItems

/-- 51 input videos, so that classify_videos forms a 50-chunk and a
1-chunk. -/
def skipVideos : List VideoIn := List.replicate 51 ⟨"v", "t", ""⟩

/-- Lookup fixture that fails exactly on the 50-video chunk and answers the
rest with two-minute videos. -/
def skipLookup : List VideoIn → Option (List ApiVideoItem) :=
  fun c =>
    if c.length = 50 then none
    else some (c.map (fun v => ⟨v.videoId, v.title, some "PT2M"⟩))

/-- Rotation keeps the key list. -/
theorem rotate_keys (km : KM) : km.rotate.keys = km.keys := rfl

/-- Iterated rotation keeps the key list. -/
theorem rotate_iterate_keys : ∀ (n : Nat) (km : KM), (KM.rotate^[n] km).keys = km.keys
  | 0, _ => rfl
  | n+1, km => by
    rw [Function.iterate_succ_apply]
    rw [rotate_iterate_keys n km.rotate]
    rfl

/-- Rotation preserves the pool invariant. -/
theorem rotate_WF (km : KM) (h : km.WF) : km.rotate.WF :=
  ⟨h.1, Nat.mod_lt _ h.1⟩

/-- After n rotations the cursor sits at (idx + n) mod pool size. -/
theorem rotate_iterate_idx : ∀ (n : Nat) (km : KM), km.idx < km.keys.length →
    (KM.rotate^[n] km).idx = (km.idx + n) % km.keys.length
  | 0, km, h => by simpa using (Nat.mod_eq_of_lt h).symm
  | n+1, km, h => by
    have hlen : 0 < km.keys.length := Nat.lt_of_le_of_lt (Nat.zero_le _) h
    have hr : km.rotate.idx < km.rotate.keys.length := by
      simpa [KM.rotate] using Nat.mod_lt _ hlen
    rw [Function.iterate_succ_apply, rotate_iterate_idx n km.rotate hr]
    simp only [KM.rotate]
    rw [Nat.mod_add_mod]
    congr 1
    omega

/-- C8: on a credential pool with a valid cursor, calling rotate exactly
pool-size times brings the cursor back to its starting index, and on a
single-element pool one rotate is a no-op cycle back to the same
credential. -/
theorem rotate_cycle_spec (km : KM) (h : km.idx < km.keys.length) :
    (KM.rotate^[km.keys.length] km).idx = km.idx
  ∧ (km.keys.length = 1 → km.rotate = km) := by
  constructor
  · rw [rotate_iterate_idx _ _ h, Nat.add_mod_right]
    exact Nat.mod_eq_of_lt h
  · intro h1
    have h0 : km.idx = 0 := by omega
    cases km with
    | mk keys idx =>
      simp only [KM.rotate, KM.mk.injEq, true_and]
      simp only at h0 h1
      subst h0
      rw [h1]

/-- Witness for C8 on a concrete three-key pool. -/
theorem rotate_cycle_spec_witness :
    (KM.rotate^[3] (⟨["a", "b", "c"], 1⟩ : KM)).idx = 1 := by
  have h := rotate_cycle_spec ⟨["a", "b", "c"], 1⟩ (by decide)
  simpa using h.1

/-- C6: parse_iso_duration maps the compact duration encoding to total
seconds with every component optional: PT1H2M3S gives 3723, PT45S gives 45,
PT10M gives 600, and the empty string or any input on which the anchored
pattern finds no match (no PT prefix) gives 0. -/
theorem parse_iso_duration_spec :
    parse_iso_duration "PT1H2M3S" = 3723
  ∧ parse_iso_duration "PT45S" = 45
  ∧ parse_iso_duration "PT10M" = 600
  ∧ parse_iso_duration "" = 0
  ∧ ∀ iso : String, startsPT iso.data = false → parse_iso_duration iso = 0 := by
  refine ⟨by decide, by decide, by decide, by decide, ?_⟩
  intro iso h
  unfold parse_iso_duration parse_iso_duration_chars
  split
  · rename_i rest heq
    rw [heq] at h
    simp [startsPT] at h
  · rfl

/-- Witness for C6 on a malformed concrete input. -/
theorem parse_iso_duration_spec_witness :
    startsPT ("1H2M").data = false ∧ parse_iso_duration "1H2M" = 0 :=
  ⟨by decide, parse_iso_duration_spec.2.2.2.2 "1H2M" (by decide)⟩

/-- When every request in the remaining window fails with a credential-class
status, the loop rotates once per failure, burns all its fuel and returns
nothing. -/
theorem api_call_go_allFail {α : Type} (oracle : Nat → ApiOutcome α) :
    ∀ (fuel t : Nat) (km : KM),
      (∀ s, t ≤ s → s < t + fuel → isCredFailure (oracle s) = true) →
      api_call_go oracle km t fuel = ⟨none, KM.rotate^[fuel] km, t + fuel⟩
  | 0, t, km, _ => by simp [api_call_go]
  | fuel+1, t, km, h => by
    have ht : isCredFailure (oracle t) = true := h t (Nat.le_refl t) (by omega)
    cases ho : oracle t with
    | success a => rw [ho] at ht; simp [isCredFailure] at ht
    | transportError => rw [ho] at ht; simp [isCredFailure] at ht
    | httpError code =>
      have hr : retryableStatus code = true := by
        rw [ho] at ht; simpa [isCredFailure] using ht
      have ih := api_call_go_allFail oracle fuel (t+1) km.rotate
        (fun s hs1 hs2 => h s (by omega) (by omega))
      simp only [api_call_go, ho, hr, if_true]
      rw [ih, ← Function.iterate_succ_apply]
      simp only [CallResult.mk.injEq, true_and]
      omega

/-- When the first k requests fail with credential-class statuses and the
next one succeeds, the loop returns that response after k rotations and
k + 1 issued requests. -/
theorem api_call_go_success {α : Type} (oracle : Nat → ApiOutcome α) (a : α) :
    ∀ (k fuel t : Nat) (km : KM), k < fuel →
      (∀ s, t ≤ s → s < t + k → isCredFailure (oracle s) = true) →
      oracle (t + k) = ApiOutcome.success a →
      api_call_go oracle km t fuel = ⟨some a, KM.rotate^[k] km, t + k + 1⟩
  | 0, fuel, t, km, hk, _, hs => by
    obtain ⟨f, rfl⟩ : ∃ f, fuel = f + 1 := ⟨fuel - 1, by omega⟩
    simp only [Nat.add_zero] at hs
    simp [api_call_go, hs]
  | k+1, fuel, t, km, hk, h, hs => by
    obtain ⟨f, rfl⟩ : ∃ f, fuel = f + 1 := ⟨fuel - 1, by omega⟩
    have ht : isCredFailure (oracle t) = true := h t (Nat.le_refl t) (by omega)
    cases ho : oracle t with
    | success b => rw [ho] at ht; simp [isCredFailure] at ht
    | transportError => rw [ho] at ht; simp [isCredFailure] at ht
    | httpError code =>
      have hr : retryableStatus code = true := by
        rw [ho] at ht; simpa [isCredFailure] using ht
      have ih := api_call_go_success oracle a k f (t+1) km.rotate (by omega)
        (fun s hs1 hs2 => h s (by omega) (by omega))
        (by rw [show t + 1 + k = t + (k + 1) by omega]; exact hs)
      simp only [api_call_go, ho, hr, if_true]
      rw [ih, ← Function.iterate_succ_apply]
      simp only [CallResult.mk.injEq, true_and]
      omega

/-- C1: when every attempt fails with a credential-class status (403, 429
or 400) the executor rotates once per failure, issues exactly pool-size
requests and returns nothing; and when the first success comes at attempt
t (all earlier attempts being credential-class failures) the executor
returns that response immediately after t + 1 requests. -/
theorem api_call_rotation_spec {α : Type} (oracle : Nat → ApiOutcome α) (km : KM) :
    ((∀ t, t < km.keys.length → isCredFailure (oracle t) = true) →
      api_call oracle km = ⟨none, KM.rotate^[km.keys.length] km, km.keys.length⟩)
  ∧ (∀ t a, t < km.keys.length →
      (∀ s, s < t → isCredFailure (oracle s) = true) →
      oracle t = ApiOutcome.success a →
      api_call oracle km = ⟨some a, KM.rotate^[t] km, t + 1⟩) := by
  constructor
  · intro h
    have hg := api_call_go_allFail oracle km.keys.length 0 km
      (fun s hs1 hs2 => h s (by omega))
    simpa [api_call] using hg
  · intro t a ht hpre hs
    have hg := api_call_go_success oracle a t km.keys.length 0 km ht
      (fun s hs1 hs2 => hpre s (by omega)) (by simpa using hs)
    simpa [api_call] using hg

/-- Witness for C1: a two-key pool, once with every attempt failing on 403
and once with a 429 followed by a success. -/
theorem api_call_rotation_spec_witness :
    api_call (fun _ => ApiOutcome.httpError (α := Nat) 403) ⟨["a", "b"], 0⟩
        = ⟨none, ⟨["a", "b"], 0⟩, 2⟩
  ∧ api_call (fun t => if t = 0 then ApiOutcome.httpError 429 else ApiOutcome.success (7 : Nat)) ⟨["a", "b"], 0⟩
        = ⟨some 7, ⟨["a", "b"], 1⟩, 2⟩ := by
  constructor
  · have h := (api_call_rotation_spec (fun _ => ApiOutcome.httpError (α := Nat) 403)
      ⟨["a", "b"], 0⟩).1 (fun t ht => by decide)
    exact h.trans (by decide)
  · have h := (api_call_rotation_spec
      (fun t => if t = 0 then ApiOutcome.httpError 429 else ApiOutcome.success (7 : Nat))
      ⟨["a", "b"], 0⟩).2 1 7 (by decide)
      (fun s hs => by
        have h0 : s = 0 := by omega
        subst h0
        decide)
      (by decide)
    exact h.trans (by decide)

/-- C2: a non-retryable failure on the very first attempt (an HTTP status
outside 403/429/400, or a transport/unexpected error) causes exactly one
issued request, no rotation, and an immediate nothing, on any pool with
more than one key. -/
theorem api_call_nonretryable_spec {α : Type} (oracle : Nat → ApiOutcome α) (km : KM)
    (hpool : 1 < km.keys.length) (hfail : isNonRetryable (oracle 0) = true) :
    api_call oracle km = ⟨none, km, 1⟩ := by
  obtain ⟨f, hf⟩ : ∃ f, km.keys.length = f + 1 := ⟨km.keys.length - 1, by omega⟩
  unfold api_call
  rw [hf]
  cases ho : oracle 0 with
  | success a => rw [ho] at hfail; simp [isNonRetryable] at hfail
  | transportError => simp [api_call_go, ho]
  | httpError code =>
    have hr : retryableStatus code = false := by
      rw [ho] at hfail
      simpa [isNonRetryable] using hfail
    simp [api_call_go, ho, hr]

/-- Witness for C2: HTTP 500 on the first attempt against a two-key pool. -/
theorem api_call_nonretryable_spec_witness :
    api_call (fun _ => ApiOutcome.httpError (α := Nat) 500) ⟨["a", "b"], 0⟩
      = ⟨none, ⟨["a", "b"], 0⟩, 1⟩ :=
  api_call_nonretryable_spec _ _ (by decide) (by decide)

/-- Unfolding first_valid over one more probed key. -/
theorem first_valid_succ (oracle : Nat → ProbeOutcome) (n : Nat) :
    first_valid oracle (n+1) = fvStep oracle (first_valid oracle n) n := by
  unfold first_valid
  rw [List.range_succ, List.foldl_append]
  rfl

/-- first_valid is none exactly when no probed key was active. -/
theorem first_valid_none_iff (oracle : Nat → ProbeOutcome) :
    ∀ n, first_valid oracle n = none ↔ ∀ i, i < n → isActive (oracle i) = false
  | 0 => by simp [first_valid]
  | n+1 => by
    rw [first_valid_succ]
    constructor
    · intro h
      cases hfv : first_valid oracle n with
      | some j => rw [hfv] at h; simp [fvStep] at h
      | none =>
        rw [hfv] at h
        have hna : isActive (oracle n) = false := by
          by_contra hc
          simp only [Bool.not_eq_false] at hc
          simp [fvStep, hc] at h
        intro i hi
        rcases Nat.lt_succ_iff_lt_or_eq.mp hi with hi2 | hi2
        · exact (first_valid_none_iff oracle n).mp hfv i hi2
        · rw [hi2]; exact hna
    · intro h
      have hfv : first_valid oracle n = none :=
        (first_valid_none_iff oracle n).mpr (fun i hi => h i (by omega))
      rw [hfv]
      simp [fvStep, h n (Nat.lt_succ_self n)]

/-- When first_valid returns an index it is in range, active, and the
earliest active index. -/
theorem first_valid_some (oracle : Nat → ProbeOutcome) :
    ∀ n i, first_valid oracle n = some i →
      i < n ∧ isActive (oracle i) = true ∧ ∀ j, j < i → isActive (oracle j) = false
  | 0, i, h => by simp [first_valid] at h
  | n+1, i, h => by
    rw [first_valid_succ] at h
    cases hfv : first_valid oracle n with
    | some j =>
      rw [hfv] at h
      simp only [fvStep, Option.some.injEq] at h
      subst h
      obtain ⟨h1, h2, h3⟩ := first_valid_some oracle n j hfv
      exact ⟨by omega, h2, h3⟩
    | none =>
      rw [hfv] at h
      by_cases ha : isActive (oracle n) = true
      · simp only [fvStep, ha, if_true, Option.some.injEq] at h
        subst h
        refine ⟨Nat.lt_succ_self n, ha, ?_⟩
        intro j hj
        exact (first_valid_none_iff oracle n).mp hfv j hj
      · have ha2 : isActive (oracle n) = false := by simpa using ha
        simp [fvStep, ha2] at h

/-- C5 counterexample: with a pool whose key 0 answers the probe
successfully, check_key_quotas sets the cursor to 0 but its Python return
value is None, not the index 0 that the claim says it returns. -/
theorem check_key_quotas_return_counterexample :
    isActive ((fun _ => ProbeOutcome.success) 0) = true
  ∧ (check_key_quotas (fun _ => ProbeOutcome.success) ⟨["k"], 0⟩).1.idx = 0
  ∧ (check_key_quotas (fun _ => ProbeOutcome.success) ⟨["k"], 0⟩).2 = none
  ∧ ¬ (check_key_quotas (fun _ => ProbeOutcome.success) ⟨["k"], 0⟩).2 = some 0 := by
  refine ⟨by decide, by decide, by decide, by decide⟩

/-- C5 (amended): check_key_quotas probes every key once; when some key is
active it sets the cursor to the earliest active index (which is in range
and has only inactive keys before it); when none is active it leaves the
pool untouched, which is exactly when every probe failed; in every case
the function itself returns None — the chosen index is communicated only
through the cursor, and execution continues. -/
theorem check_key_quotas_spec (oracle : Nat → ProbeOutcome) (km : KM) :
    (check_key_quotas oracle km).2 = none
  ∧ (∀ i, first_valid oracle km.keys.length = some i →
      (check_key_quotas oracle km).1 = ⟨km.keys, i⟩
      ∧ i < km.keys.length ∧ isActive (oracle i) = true
      ∧ ∀ j, j < i → isActive (oracle j) = false)
  ∧ (first_valid oracle km.keys.length = none → (check_key_quotas oracle km).1 = km)
  ∧ (first_valid oracle km.keys.length = none ↔
      ∀ i, i < km.keys.length → isActive (oracle i) = false) := by
  refine ⟨?_, ?_, ?_, first_valid_none_iff oracle km.keys.length⟩
  · unfold check_key_quotas
    cases first_valid oracle km.keys.length <;> rfl
  · intro i hi
    obtain ⟨h1, h2, h3⟩ := first_valid_some oracle km.keys.length i hi
    unfold check_key_quotas
    rw [hi]
    exact ⟨rfl, h1, h2, h3⟩
  · intro hn
    unfold check_key_quotas
    rw [hn]

/-- Witness for C5 on a two-key pool whose first key is exhausted. -/
theorem check_key_quotas_spec_witness :
    (check_key_quotas probeW ⟨["a", "b"], 0⟩).2 = none
  ∧ (check_key_quotas probeW ⟨["a", "b"], 0⟩).1 = ⟨["a", "b"], 1⟩ := by
  have h := check_key_quotas_spec probeW ⟨["a", "b"], 0⟩
  exact ⟨h.1, (h.2.1 1 (by decide)).1⟩

/-- The rotation loop of api_call preserves the pool invariant. -/
theorem api_call_go_WF {α : Type} (oracle : Nat → ApiOutcome α) :
    ∀ (fuel t : Nat) (km : KM), km.WF → (api_call_go oracle km t fuel).pool.WF
  | 0, _, _, h => h
  | fuel+1, t, km, h => by
    cases ho : oracle t with
    | success a => simpa [api_call_go, ho] using h
    | transportError => simpa [api_call_go, ho] using h
    | httpError code =>
      by_cases hr : retryableStatus code = true
      · have hWF := rotate_WF km h
        simpa [api_call_go, ho, hr] using
          api_call_go_WF oracle fuel (t+1) km.rotate hWF
      · have hr2 : retryableStatus code = false := by simpa using hr
        simpa [api_call_go, ho, hr2] using h

/-- C9: construction (KeyManager loading) only succeeds with a non-empty
key list and a cursor at 0, hence well-formed; and the invariant
0 <= idx < length is preserved by rotate, by the quota probe's cursor
assignment, and by every executor call. -/
theorem pool_invariant_spec :
    (∀ (lines : List String) (km : KM), keyManager_init lines = some km → km.WF)
  ∧ (∀ km : KM, km.WF → km.rotate.WF)
  ∧ (∀ (oracle : Nat → ProbeOutcome) (km : KM), km.WF → (check_key_quotas oracle km).1.WF)
  ∧ (∀ (α : Type) (oracle : Nat → ApiOutcome α) (km : KM), km.WF →
      (api_call oracle km).pool.WF) := by
  refine ⟨?_, rotate_WF, ?_, ?_⟩
  · intro lines km h
    simp only [keyManager_init] at h
    split at h
    · exact Option.noConfusion h
    · rename_i hne
      injection h with h2
      subst h2
      exact ⟨List.length_pos.mpr hne, List.length_pos.mpr hne⟩
  · intro oracle km h
    unfold check_key_quotas
    cases hfv : first_valid oracle km.keys.length with
    | none => exact h
    | some i =>
      obtain ⟨h1, _, _⟩ := first_valid_some oracle km.keys.length i hfv
      exact ⟨h.1, h1⟩
  · intro α oracle km h
    exact api_call_go_WF oracle km.keys.length 0 km h

/-- Witness for C9 on concrete pools. -/
theorem pool_invariant_spec_witness :
    KM.WF ⟨["k1"], 0⟩
  ∧ KM.WF (KM.rotate ⟨["a", "b"], 1⟩)
  ∧ KM.WF (check_key_quotas probeW ⟨["a", "b"], 0⟩).1
  ∧ KM.WF (api_call (fun _ => ApiOutcome.httpError (α := Nat) 403) ⟨["a", "b"], 0⟩).pool := by
  refine ⟨?_, ?_, ?_, ?_⟩
  · exact pool_invariant_spec.1 [" k1 "] ⟨["k1"], 0⟩ (by decide)
  · exact pool_invariant_spec.2.1 ⟨["a", "b"], 1⟩ ⟨by decide, by decide⟩
  · exact pool_invariant_spec.2.2.1 probeW ⟨["a", "b"], 0⟩ ⟨by decide, by decide⟩
  · exact pool_invariant_spec.2.2.2 Nat (fun _ => ApiOutcome.httpError 403)
      ⟨["a", "b"], 0⟩ ⟨by decide, by decide⟩

/-- When pages t .. t+m-1 succeed with truthy tokens and the request for
page t+m comes back empty, the pagination loop stops there and its item
accumulator holds exactly the prior pages' items. -/
theorem search_go_halted {ι : Type} (fetch : Nat → Option (Page ι)) :
    ∀ (m fuel t : Nat) (acc : List ι) (tr : Option (Option Nat)), m < fuel →
      (∀ j, t ≤ j → j < t + m → ∃ p, fetch j = some p ∧ truthyToken p.nextPageToken = true) →
      fetch (t + m) = none →
      (search_go fetch fuel t acc tr).1 = acc ++ pagesItems fetch t m
  | 0, fuel, t, acc, tr, hm, _, hf => by
    obtain ⟨f, rfl⟩ : ∃ f, fuel = f + 1 := ⟨fuel - 1, by omega⟩
    simp only [Nat.add_zero] at hf
    simp [search_go, hf, pagesItems]
  | m+1, fuel, t, acc, tr, hm, hs, hf => by
    obtain ⟨f, rfl⟩ : ∃ f, fuel = f + 1 := ⟨fuel - 1, by omega⟩
    obtain ⟨p, hp, htok⟩ := hs t (Nat.le_refl t) (by omega)
    have ih := search_go_halted fetch m f (t+1) (acc ++ p.items)
      (match tr with | none => some p.totalResults | some v => some v)
      (by omega)
      (fun j hj1 hj2 => hs j (by omega) (by omega))
      (by rw [show t + 1 + m = t + (m + 1) by omega]; exact hf)
    simp only [search_go, hp, htok, if_true]
    rw [ih]
    simp [pagesItems, fetchedItems, hp, List.append_assoc]

/-- C3: if the executor returns nothing for page k after k earlier pages
(k at least one) were fetched successfully, search_youtube_all stops and
returns exactly the items accumulated from those prior pages, in order. -/
theorem paginate_partial_spec {ι : Type} (fetch : Nat → Option (Page ι)) (k fuel : Nat)
    (hk : 1 ≤ k) (hfuel : k < fuel)
    (hsucc : ∀ j, j < k → ∃ p, fetch j = some p ∧ truthyToken p.nextPageToken = true)
    (hfail : fetch k = none) :
    (search_youtube_all fetch fuel).1 = pagesItems fetch 0 k := by
  have hg := search_go_halted fetch k fuel 0 [] none hfuel
    (fun j hj1 hj2 => hsucc j (by omega)) (by simpa using hfail)
  simpa [search_youtube_all] using hg

/-- Witness for C3: two good pages, then the executor comes back empty. -/
theorem paginate_partial_spec_witness :
    (search_youtube_all fetchW3 5).1 = [1, 2, 3] := by
  have h := paginate_partial_spec fetchW3 2 5 (by omega) (by omega)
    (fun j hj => by
      match j, hj with
      | 0, _ => exact ⟨_, rfl, by decide⟩
      | 1, _ => exact ⟨_, rfl, by decide⟩)
    rfl
  exact h.trans (by decide)

/-- When pages t .. t+m succeed, the first m carrying truthy tokens and
page t+m not, the loop drains all m+1 pages and captures the first page's
reported total unless one was already captured. -/
theorem search_go_full {ι : Type} (fetch : Nat → Option (Page ι)) (pages : Nat → Page ι) :
    ∀ (m fuel t : Nat) (acc : List ι) (tr : Option (Option Nat)), m < fuel →
      (∀ j, t ≤ j → j ≤ t + m → fetch j = some (pages j)) →
      (∀ j, t ≤ j → j < t + m → truthyToken (pages j).nextPageToken = true) →
      truthyToken (pages (t + m)).nextPageToken = false →
      search_go fetch fuel t acc tr =
        (acc ++ pagesItems fetch t (m+1),
         match tr with | none => some (pages t).totalResults | some v => some v)
  | 0, fuel, t, acc, tr, hm, hok, _, hlast => by
    obtain ⟨f, rfl⟩ : ∃ f, fuel = f + 1 := ⟨fuel - 1, by omega⟩
    have hp : fetch t = some (pages t) := hok t (Nat.le_refl t) (by omega)
    simp only [Nat.add_zero] at hlast
    simp only [search_go, hp, hlast, Bool.false_eq_true, if_false]
    simp [pagesItems, fetchedItems, hp]
  | m+1, fuel, t, acc, tr, hm, hok, hcont, hlast => by
    obtain ⟨f, rfl⟩ : ∃ f, fuel = f + 1 := ⟨fuel - 1, by omega⟩
    have hp : fetch t = some (pages t) := hok t (Nat.le_refl t) (by omega)
    have htok : truthyToken (pages t).nextPageToken = true :=
      hcont t (Nat.le_refl t) (by omega)
    have ih := search_go_full fetch pages m f (t+1) (acc ++ (pages t).items)
      (match tr with | none => some (pages t).totalResults | some v => some v)
      (by omega)
      (fun j hj1 hj2 => hok j (by omega) (by omega))
      (fun j hj1 hj2 => hcont j (by omega) (by omega))
      (by rw [show t + 1 + m = t + (m + 1) by omega]; exact hlast)
    simp only [search_go, hp, htok, if_true]
    rw [ih]
    have hitems : (pages (t+1)).items = (pages (t+1)).items := rfl
    refine Prod.ext ?_ ?_
    · simp [pagesItems, fetchedItems, hp, List.append_assoc]
    · cases tr <;> rfl

/-- C4: over any run of successful pages, search_youtube_all appends each
page's items in page order, repeats while the page carries a truthy
continuation token, stops at the first page without one, and captures the
total-count estimate reported on the first page only, whatever the later
pages report and however many items actually arrive. -/
theorem paginate_full_spec {ι : Type} (fetch : Nat → Option (Page ι))
    (pages : Nat → Page ι) (n fuel : Nat) (hfuel : n < fuel)
    (hsucc : ∀ j, j ≤ n → fetch j = some (pages j))
    (hcont : ∀ j, j < n → truthyToken (pages j).nextPageToken = true)
    (hlast : truthyToken (pages n).nextPageToken = false) :
    search_youtube_all fetch fuel = (pagesItems fetch 0 (n+1), some (pages 0).totalResults) := by
  have hg := search_go_full fetch pages n fuel 0 [] none hfuel
    (fun j hj1 hj2 => hsucc j (by omega))
    (fun j hj1 hj2 => hcont j (by omega))
    (by simpa using hlast)
  simpa [search_youtube_all] using hg

/-- Witness for C4: the 50/50/13 three-page source yields 113 items and the
captured estimate is page one's 9999, not the 7 or 4 reported later. -/
theorem paginate_full_spec_witness :
    (search_youtube_all fetchW 10).1.length = 113
  ∧ (search_youtube_all fetchW 10).2 = some (some 9999) := by
  have h := paginate_full_spec fetchW pagesW 2 10 (by omega)
    (fun j hj => rfl)
    (fun j hj => by
      match j, hj with
      | 0, _ => decide
      | 1, _ => decide)
    (by decide)
  refine ⟨?_, ?_⟩
  · rw [h]
    decide
  · rw [h]
    rfl

/-- The inner classification loop appends the long and short entries of a
reply, in reply order, to the respective accumulators. -/
theorem classifyItems_spec :
    ∀ (items : List ApiVideoItem) (acc : List Entry × List Entry),
      classifyItems items acc =
        (acc.1 ++ (items.map toEntry).filter isLong,
         acc.2 ++ (items.map toEntry).filter isShort)
  | [], acc => by simp [classifyItems]
  | it :: items, acc => by
    rcases Nat.lt_or_ge 60 (toEntry it).seconds with hl | hs
    · have hf1 : isLong (toEntry it) = true := by simp [isLong, hl]
      have hf2 : isShort (toEntry it) = false := by simp [isShort]; omega
      have hif : ¬ (toEntry it).seconds ≤ 60 := by omega
      have step : classifyItems (it :: items) acc
          = classifyItems items (acc.1 ++ [toEntry it], acc.2) := by
        simp only [classifyItems, List.foldl_cons, if_neg hif]
      rw [step, classifyItems_spec items (acc.1 ++ [toEntry it], acc.2)]
      simp [hf1, hf2, List.filter_cons, List.append_assoc]
    · have hf1 : isLong (toEntry it) = false := by simp [isLong]; omega
      have hf2 : isShort (toEntry it) = true := by simp [isShort]; omega
      have hif : (toEntry it).seconds ≤ 60 := hs
      have step : classifyItems (it :: items) acc
          = classifyItems items (acc.1, acc.2 ++ [toEntry it]) := by
        simp only [classifyItems, List.foldl_cons, if_pos hif]
      rw [step, classifyItems_spec items (acc.1, acc.2 ++ [toEntry it])]
      simp [hf1, hf2, List.filter_cons, List.append_assoc]

/-- The chunk loop of classify_videos appends, over the chunks whose lookup
succeeded, the long and short entries of all reply items in order. -/
theorem classify_fold_spec (lookup : List VideoIn → Option (List ApiVideoItem)) :
    ∀ (cs : List (List VideoIn)) (acc : List Entry × List Entry),
      cs.foldl (fun acc chunk =>
        match lookup chunk with
        | none => acc
        | some items => classifyItems items acc) acc =
      (acc.1 ++ ((concatAll (cs.map (fun c => (lookup c).getD []))).map toEntry).filter isLong,
       acc.2 ++ ((concatAll (cs.map (fun c => (lookup c).getD []))).map toEntry).filter isShort)
  | [], acc => by simp [concatAll]
  | c :: cs, acc => by
    rw [List.foldl_cons]
    cases hl : lookup c with
    | none =>
      rw [classify_fold_spec lookup cs acc]
      simp [hl, concatAll]
    | some items =>
      rw [classify_fold_spec lookup cs (classifyItems items acc),
          classifyItems_spec items acc]
      simp [hl, concatAll, List.map_append, List.filter_append, List.append_assoc]

/-- classify_videos equals the order-preserving partition, by the 60-second
threshold, of the entries of all successfully looked-up chunks. -/
theorem classify_videos_filters (lookup : List VideoIn → Option (List ApiVideoItem))
    (videos : List VideoIn) :
    classify_videos lookup videos =
      (((successfulItems lookup videos).map toEntry).filter isLong,
       ((successfulItems lookup videos).map toEntry).filter isShort) := by
  unfold classify_videos successfulItems
  simpa using classify_fold_spec lookup (chunks50 videos) ([], [])

/-- The two buckets are complementary, so their sizes add up to the number
of classified entries. -/
theorem filter_long_short_length :
    ∀ l : List Entry, (l.filter isLong).length + (l.filter isShort).length = l.length
  | [] => rfl
  | e :: l => by
    rcases Nat.lt_or_ge 60 e.seconds with h | h
    · have h1 : isLong e = true := by simp [isLong, h]
      have h2 : isShort e = false := by simp [isShort]; omega
      simp [List.filter_cons, h1, h2]
      have := filter_long_short_length l
      omega
    · have h1 : isLong e = false := by simp [isLong]; omega
      have h2 : isShort e = true := by simp [isShort]; omega
      simp [List.filter_cons, h1, h2]
      have := filter_long_short_length l
      omega

/-- C7: classify_videos partitions the classified entries into long
(seconds > 60) and short (seconds <= 60) preserving relative input order in
each bucket — they are the two filters of the entry sequence — and on the
fixture with seconds 30, 90, 61, 60 the longs are the 90 and 61 entries in
that order and the shorts the 30 and 60 entries in that order. -/
theorem classify_partition_spec :
    (∀ (lookup : List VideoIn → Option (List ApiVideoItem)) (videos : List VideoIn),
      classify_videos lookup videos =
        (((successfulItems lookup videos).map toEntry).filter isLong,
         ((successfulItems lookup videos).map toEntry).filter isShort))
  ∧ classify_videos fixtureLookup fixtureVideos =
      ([⟨"v2", "b", 90⟩, ⟨"v3", "c", 61⟩], [⟨"v1", "a", 30⟩, ⟨"v4", "d", 60⟩]) :=
  ⟨classify_videos_filters, by decide⟩

/-- C10: the two buckets together hold exactly the entries of the chunks
whose metadata lookup succeeded, so a chunk whose lookup returns nothing is
silently skipped; concretely, with 51 input videos and the 50-video chunk's
lookup failing, the buckets hold 1 entry in total, strictly fewer than the
51 input videos. -/
theorem classify_skip_spec :
    (∀ (lookup : List VideoIn → Option (List ApiVideoItem)) (videos : List VideoIn),
      (classify_videos lookup videos).1.length + (classify_videos lookup videos).2.length
        = (successfulItems lookup videos).length)
  ∧ (classify_videos skipLookup skipVideos).1.length
      + (classify_videos skipLookup skipVideos).2.length < skipVideos.length := by
  constructor
  · intro lookup videos
    rw [classify_videos_filters]
    have h := filter_long_short_length ((successfulItems lookup videos).map toEntry)
    simpa [List.length_map] using h
  · decide

end ChannelFinder
